import Mathlib

/-!
Verification development for the quiz-chain solver repository
(`solver.py`, `utils.py`, `llm_agent.py`).

The Python sources are shallowly embedded as executable Lean definitions:

* Python strings are `String` (lists of unicode scalar values); `str.lower`,
  `str.strip`, slicing and the `in` substring test are modelled on ASCII
  data, which is the only data the repository's regular expressions and
  keywords operate on.
* The `re.search` calls of the sources are modelled by a small backtracking
  regular-expression engine (`RE`, `reMatch`, `research`) with Python's
  semantics for the constructs that actually occur in the source patterns:
  leftmost match, greedy quantifiers over character classes, ordered
  alternation, optional pieces, capturing groups, and the `re.I` flag
  (modelled by a configurable character-equivalence).
* pandas data frames are embedded as `Df` (column names plus rows of cells);
  a cell is either a number (exact rational, modelling the float value) or a
  non-numeric string; `pd.to_numeric(..., errors="coerce")` maps the latter
  to missing.  A column has numeric dtype iff it is nonempty and all its
  cells are numeric.
* External collaborators (HTTP transport, BeautifulSoup text extraction,
  pandas CSV/Excel parsing, pdfplumber, matplotlib chart rendering, base64)
  are supplied by an environment record `Env`, exactly as the specification
  scopes them out; all decision logic of the repository itself is embedded.
* Python exceptions on a path are modelled by `Option` (`none` = raised),
  and the `try`/`except` blocks of the source are the corresponding
  `Option` eliminations.
-/

/-! ## Python string primitives (ASCII model) -/

/-- Model of `str.lower` (ASCII letters; the source only lowercases
ASCII keywords and column names). -/
def pyLower (s : String) : String := String.mk (s.data.map Char.toLower)

/-- Model of Python whitespace (the ASCII characters matched by `\s`
and stripped by `str.strip`). -/
def isPySpace (c : Char) : Bool :=
  c = ' ' || c = '\t' || c = '\n' || c = '\r' || c = Char.ofNat 11 || c = Char.ofNat 12

/-- Model of Python slicing `s[:n]` (by code point). -/
def pyTake (s : String) (n : Nat) : String := String.mk (s.data.take n)

/-- Model of `str.strip()`. -/
def pyStrip (s : String) : String :=
  String.mk (((s.data.dropWhile isPySpace).reverse.dropWhile isPySpace).reverse)

/-- Prefix test on character lists. -/
def isPre : List Char → List Char → Bool
  | [], _ => true
  | _ :: _, [] => false
  | a :: as_, b :: bs => a == b && isPre as_ bs

/-- Infix test on character lists. -/
def isInf (needle : List Char) : List Char → Bool
  | [] => isPre needle []
  | c :: cs => isPre needle (c :: cs) || isInf needle cs

/-- Model of the Python substring test `needle in hay`. -/
def containsSub (hay needle : String) : Bool := isInf needle.data hay.data

/-- Model of `int(...)` on a captured digit string. -/
def digitsToNat (ds : List Char) : Nat :=
  ds.foldl (fun a c => 10 * a + (c.toNat - 48)) 0

/-! ## A backtracking regular-expression engine

Only the constructs used by the repository's patterns are represented.
Quantifiers (`*`, `+`) occur in the sources only over single character
classes, which the syntax reflects; this keeps the engine structurally
recursive while matching Python's greedy backtracking semantics. -/

/-- Regular expression syntax for the source patterns. -/
inductive RE where
  /-- matches the empty string -/
  | eps
  /-- a single-character class -/
  | cls (p : Char → Bool)
  /-- a literal string -/
  | lit (s : List Char)
  /-- greedy `p*` over a character class -/
  | star (p : Char → Bool)
  /-- greedy `p+` over a character class -/
  | plus (p : Char → Bool)
  /-- greedy `r?` -/
  | opt (r : RE)
  /-- ordered alternation -/
  | alt (r1 r2 : RE)
  /-- sequencing -/
  | seq (r1 r2 : RE)
  /-- capturing group number `n` -/
  | grp (n : Nat) (r : RE)
  /-- `^` (start of subject; the sources use no MULTILINE flag) -/
  | bol

/-- Remainders of greedily matching `p*` on `s`, longest match first
(Python's backtracking order). -/
def starDrops (p : Char → Bool) : List Char → List (List Char)
  | [] => [[]]
  | c :: cs => if p c then starDrops p cs ++ [c :: cs] else [c :: cs]

/-- Literal-prefix test up to a character equivalence (used for `re.I`). -/
def isPreBy (eqv : Char → Char → Bool) : List Char → List Char → Bool
  | [], _ => true
  | _ :: _, [] => false
  | a :: as_, b :: bs => eqv a b && isPreBy eqv as_ bs

/-- All ways to match `r` against a prefix of the subject suffix `s`
(which starts at absolute position `pos`), in Python's backtracking
priority order.  Each result is the remaining suffix together with the
captured groups. -/
def reMatch (eqv : Char → Char → Bool) :
    RE → Nat → List Char → List (List Char × List (Nat × List Char))
  | .eps, _, s => [(s, [])]
  | .cls _, _, [] => []
  | .cls p, _, c :: cs => if p c then [(cs, [])] else []
  | .lit l, _, s => if isPreBy eqv l s then [(s.drop l.length, [])] else []
  | .star p, _, s => (starDrops p s).map (fun r => (r, []))
  | .plus _, _, [] => []
  | .plus p, _, c :: cs =>
      if p c then (starDrops p cs).map (fun r => (r, [])) else []
  | .opt r, pos, s => reMatch eqv r pos s ++ [(s, [])]
  | .alt r1 r2, pos, s => reMatch eqv r1 pos s ++ reMatch eqv r2 pos s
  | .seq r1 r2, pos, s =>
      (reMatch eqv r1 pos s).flatMap fun pr =>
        (reMatch eqv r2 (pos + (s.length - pr.1.length)) pr.1).map fun pr2 =>
          (pr2.1, pr.2 ++ pr2.2)
  | .grp n r, pos, s =>
      (reMatch eqv r pos s).map fun pr =>
        (pr.1, (n, s.take (s.length - pr.1.length)) :: pr.2)
  | .bol, pos, s => if pos == 0 then [(s, [])] else []

/-- Scan of `re.search`: try each start position left to right; at the
first position admitting a match take the highest-priority one.  Returns
the matched text (`group(0)`) and the captured groups. -/
def searchFrom (eqv : Char → Char → Bool) (r : RE) :
    Nat → List Char → Option (List Char × List (Nat × List Char))
  | pos, [] =>
    match reMatch eqv r pos [] with
    | res :: _ => some ([], res.2)
    | [] => none
  | pos, c :: s =>
    match reMatch eqv r pos (c :: s) with
    | res :: _ => some ((c :: s).take ((c :: s).length - res.1.length), res.2)
    | [] => searchFrom eqv r (pos + 1) s

/-- Model of `re.search(pattern, s)`. -/
def research (eqv : Char → Char → Bool) (r : RE) (s : List Char) :
    Option (List Char × List (Nat × List Char)) :=
  searchFrom eqv r 0 s

/-- Model of `m.group(n)` for the patterns of the sources (each group
number appears once per match). -/
def capGet (caps : List (Nat × List Char)) (n : Nat) : Option (List Char) :=
  (caps.find? (fun pr => pr.1 == n)).map (fun pr => pr.2)

/-- Exact character equality (patterns compiled without flags, applied by
the source to already lowercased text). -/
def eqvExact (a b : Char) : Bool := a == b

/-- Case-insensitive character equivalence (the `re.I` flag of the
patterns in `solver.py`). -/
def eqvCI (a b : Char) : Bool := a.toLower == b.toLower

/-- Right-nested sequencing of a pattern list. -/
def seqs (rs : List RE) : RE := rs.foldr RE.seq RE.eps

/-- Ordered alternation of a pattern list. -/
def alts : List RE → RE
  | [] => RE.eps
  | [r] => r
  | r :: r2 :: rs => RE.alt r (alts (r2 :: rs))

/-- Literal pattern from a string. -/
def relit (s : String) : RE := RE.lit s.data

/-! ## Character classes of the source patterns -/

/-- Class `[0-9]`. -/
def digitC (c : Char) : Bool := '0' ≤ c && c ≤ '9'

/-- Class `[a-z0-9 _-]` (column-name characters in `utils.py`). -/
def colNameC (c : Char) : Bool :=
  ('a' ≤ c && c ≤ 'z') || digitC c || c = ' ' || c = '_' || c = '-'

/-- Class of a single or double quote. -/
def quoteC (c : Char) : Bool := c = Char.ofNat 39 || c = '"'

/-- Class of URL characters, the negated class of whitespace, quotes and
angle brackets used throughout `solver.py`. -/
def urlC (c : Char) : Bool :=
  !(isPySpace c || c = Char.ofNat 39 || c = '"' || c = '<' || c = '>')

/-- Class `[^A-Za-z]`. -/
def notAlphaC (c : Char) : Bool :=
  !(('A' ≤ c && c ≤ 'Z') || ('a' ≤ c && c ≤ 'z'))

/-- Class of a colon or whitespace character. -/
def colonWsC (c : Char) : Bool := c = ':' || isPySpace c

/-- Class of a colon or hyphen. -/
def colonDashC (c : Char) : Bool := c = ':' || c = '-'

/-- Class `[A-Za-z0-9_-]` (secret-code characters). -/
def idC (c : Char) : Bool :=
  ('A' ≤ c && c ≤ 'Z') || ('a' ≤ c && c ≤ 'z') || digitC c || c = '_' || c = '-'

/-- Class of the slash character. -/
def slashC (c : Char) : Bool := c = '/'

/-! ## The compiled patterns of `utils.py` -/

/-- Pattern of the cutoff detector in `parse_question_text`. -/
def cutoffRe : RE := seqs [relit "cutoff", .plus colonWsC, .grp 1 (.plus digitC)]

/-- Pattern of the sum-of-column rule in `parse_question_text`. -/
def sumColRe : RE :=
  seqs [relit "sum of the", .plus isPySpace, .opt (.cls quoteC),
        .grp 1 (.plus colNameC), .opt (.cls quoteC), .plus isPySpace,
        relit "column"]

/-- Pattern of the max rule in `parse_question_text`. -/
def maxColRe : RE :=
  seqs [.alt (seqs [relit "max", .opt (relit "imum"), relit " of the"])
             (relit "maximum of the"),
        .plus isPySpace, .opt (.cls quoteC), .grp 1 (.plus colNameC),
        .opt (.cls quoteC), .plus isPySpace, relit "column"]

/-- Pattern of the mean rule in `parse_question_text`. -/
def meanColRe : RE :=
  seqs [.alt (relit "mean") (relit "average"), relit " of the",
        .plus isPySpace, .opt (.cls quoteC), .grp 1 (.plus colNameC),
        .opt (.cls quoteC), .plus isPySpace, relit "column"]

/-- Pattern of the page-number detector in `parse_question_text`. -/
def pageRe : RE := seqs [relit "page", .plus isPySpace, .grp 1 (.plus digitC)]

/-! ## The compiled patterns of `solver.py` (all applied with `re.I`) -/

/-- First submit-URL pattern: absolute URL containing a slash-submit. -/
def submitRe1 : RE :=
  seqs [relit "http", .opt (relit "s"), relit "://", .plus urlC,
        relit "/submit", .star urlC]

/-- Second submit-URL pattern: absolute URL containing a slash followed by
submit, post or answer. -/
def submitRe2 : RE :=
  seqs [relit "http", .opt (relit "s"), relit "://", .plus urlC, relit "/",
        .grp 1 (alts [relit "submit", relit "post", relit "answer"]),
        .star urlC]

/-- Third submit-URL pattern: a relative slash-submit path preceded by the
start of the subject or a non-letter. -/
def submitRe3 : RE :=
  seqs [.grp 1 (.alt .bol (.cls notAlphaC)),
        .grp 2 (seqs [relit "/submit", .star urlC])]

/-- Fourth submit-URL pattern: a post-back-to instruction naming a relative
slash-submit path. -/
def submitRe4 : RE :=
  seqs [relit "post", .plus isPySpace, relit "back", .plus isPySpace,
        relit "to", .plus isPySpace,
        .grp 1 (seqs [relit "/submit", .star urlC])]

/-- Data-file URL pattern of `detect_file_url`. -/
def fileRe : RE :=
  seqs [relit "http", .opt (relit "s"), relit "://", .plus urlC, relit ".",
        .grp 1 (alts [relit "csv", relit "pdf", relit "xlsx", relit "xls",
                      relit "json", relit "wav", relit "mp3", relit "m4a",
                      relit "ogg"])]

/-- Scrape-instruction pattern of `detect_scrape_url`. -/
def scrapeRe : RE :=
  seqs [relit "scrape", .plus isPySpace,
        .grp 1 (seqs [.cls slashC, .plus urlC])]

/-- Secret-code pattern of `scrape_secondary_page`. -/
def secretRe : RE :=
  seqs [relit "secret", .star isPySpace, relit "code", .star isPySpace,
        .opt (.cls colonDashC), .star isPySpace, .grp 1 (.plus idC)]

/-- Audio-file URL pattern of `detect_audio_url`. -/
def audioRe : RE :=
  seqs [relit "http", .opt (relit "s"), relit "://", .plus urlC, relit ".",
        .grp 1 (alts [relit "mp3", relit "wav", relit "m4a", relit "ogg"])]

/-! ## `utils.parse_question_text` -/

/-- The structured intent dictionary produced by `parse_question_text`
(`llm_agent.py` documents the field set).  Absent dictionary keys are
`none` / `false`, matching the `dict.get` reads of the consumers. -/
structure QSpec where
  action : String
  column : Option String := none
  cutoff : Option ℚ := none
  page : Option Nat := none
  chart : Bool := false
deriving Repr, DecidableEq

/-- Embedding of `utils.parse_question_text`: the ordered decision list
turning page text (plus optional preformatted text) into an intent. -/
def parse_question_text (page_text : String) (pre_text : Option String := none) :
    QSpec :=
  let text := (pre_text.getD "") ++ "\n" ++ page_text
  let txt := pyLower text
  let cutoff : Option ℚ :=
    (research eqvExact cutoffRe txt.data).bind
      (fun r => (capGet r.2 1).map (fun ds => ((digitsToNat ds : ℕ) : ℚ)))
  if containsSub txt "sum of the" && containsSub txt "column" then
    { action := "sum"
      column := (research eqvExact sumColRe txt.data).bind
        (fun r => (capGet r.2 1).map String.mk)
      cutoff := cutoff }
  else if containsSub txt "count" && containsSub txt "rows" then
    { action := "count", cutoff := cutoff }
  else if (containsSub txt "max" || containsSub txt "maximum")
          && containsSub txt "column" then
    { action := "max"
      column := (research eqvExact maxColRe txt.data).bind
        (fun r => (capGet r.2 1).map String.mk)
      cutoff := cutoff }
  else if containsSub txt "mean" || containsSub txt "average" then
    { action := "mean"
      column := (research eqvExact meanColRe txt.data).bind
        (fun r => (capGet r.2 1).map String.mk)
      cutoff := cutoff }
  else if containsSub txt "page" && containsSub txt "pdf" then
    { action := "pdf_read"
      page := (research eqvExact pageRe txt.data).bind
        (fun r => (capGet r.2 1).map digitsToNat) }
  else if containsSub txt "chart" || containsSub txt "plot" then
    { action := "chart", chart := true }
  else if containsSub txt "download" || containsSub txt "file"
          || containsSub txt "csv" then
    { action := "download_return_file", cutoff := cutoff }
  else
    { action := "return_text" }

/-! ## Data frames and `utils.compute_answer_from_df` -/

/-- A cell of a parsed table: a numeric value (the exact rational carried
by the float) or a non-numeric string. -/
inductive Cell where
  | num (q : ℚ)
  | str (s : String)
deriving Repr, DecidableEq

/-- A parsed pandas data frame: column names and rows of cells. -/
structure Df where
  columns : List String
  rows : List (List Cell)
deriving Repr, DecidableEq

/-- Model of `pd.to_numeric(..., errors="coerce")` on one cell:
non-numeric cells become missing. -/
def toNumericCell : Cell → Option ℚ
  | .num q => some q
  | .str _ => none

/-- Index of an exactly named column. -/
def colIdx (df : Df) (name : String) : Option Nat :=
  df.columns.findIdx? (fun c => c == name)

/-- The cells of the column at an index. -/
def getColByIdx (df : Df) (i : Nat) : List Cell :=
  df.rows.map (fun r => r.getD i (.str ""))

/-- Model of the column access `df[name]`; `none` models the `KeyError`
raised when no column bears exactly that name. -/
def getColExact (df : Df) (name : String) : Option (List Cell) :=
  (colIdx df name).map (getColByIdx df)

/-- Model of `pd.api.types.is_numeric_dtype(df[c])`: the column is
nonempty and entirely numeric. -/
def isNumericCol : List Cell → Bool
  | [] => false
  | c :: cs => (c :: cs).all (fun x => match x with | .num _ => true | .str _ => false)

/-- Python truthiness of an optional string (`None` and the empty string
are falsy). -/
def optTruthy : Option String → Bool
  | none => false
  | some s => s ≠ ""

/-- The fixed candidate column list of the first resolution fallback. -/
def candidateList : List String := ["value", "amount", "price", "score", "count"]

/-- The shorter candidate list of the final fallback loop in
`compute_answer_from_df` (it omits the count column). -/
def fallbackCands : List String := ["value", "amount", "price", "score"]

/-- First candidate of `cands` present among the lowercased column names,
returned under its original name (`df.columns[cols.index(cand)]`). -/
def firstCandidate (df : Df) (cands : List String) : Option String :=
  let cols := df.columns.map pyLower
  match cands.find? (fun cand => cols.contains cand) with
  | some cand => (cols.findIdx? (fun c => c == cand)).map
      (fun i => df.columns.getD i "")
  | none => none

/-- Column resolution of `compute_answer_from_df`: a truthy requested
column is matched case-insensitively, else the candidate list is tried;
with no requested column the first numeric-dtype column is chosen. -/
def resolveColumn (df : Df) (col : Option String) : Option String :=
  if optTruthy col then
    match df.columns.filter (fun c => pyLower c == pyLower (col.getD "")) with
    | c :: _ => some c
    | [] => firstCandidate df candidateList
  else
    df.columns.find? (fun c => isNumericCol ((getColExact df c).getD []))

/-- A JSON-serializable-or-not Python value, as far as the payload code
observes one.  `num lit` is a Python number carried by the exact token
`json.dumps` emits for it; `nonserial` is an object on which `json.dumps`
raises. -/
inductive J where
  | null
  | jbool (b : Bool)
  | num (lit : String)
  | str (s : String)
  | arr (elems : List J)
  | obj (fields : List (String × J))
  | nonserial

/-- A Python value produced by the answer computation.  Floats carry
their exact rational value; `floatNaN` is the NaN produced by reducing an
empty series; `jsonv` holds a value parsed from a JSON file. -/
inductive PyVal where
  | float (q : ℚ)
  | floatNaN
  | int (n : ℤ)
  | str (s : String)
  | jsonv (j : J)
  | none_

/-- The numeric series of a resolved column: `pd.to_numeric(...).dropna()`
followed by the strict cutoff filter when a cutoff is present. -/
def seriesOf (df : Df) (cn : String) (cutoff : Option ℚ) : List ℚ :=
  let s := ((getColExact df cn).getD []).filterMap toNumericCell
  match cutoff with
  | some q => s.filter (fun v => decide (q < v))
  | none => s

/-- Maximum of a rational list (`none` on the empty list). -/
def qMaxList : List ℚ → Option ℚ
  | [] => none
  | q :: qs => some (qs.foldl max q)

/-- Minimum of a rational list (`none` on the empty list). -/
def qMinList : List ℚ → Option ℚ
  | [] => none
  | q :: qs => some (qs.foldl min q)

/-- The four reduction branches of the numeric-operations block; `none`
models falling through to the final fallback loop.  Reductions of an
empty series give pandas NaN. -/
def reduceSeries (act : String) (series : List ℚ) : Option PyVal :=
  if act == "sum" then some (.float series.sum)
  else if act == "mean" || act == "average" then
    some (if series.isEmpty then .floatNaN
          else .float (series.sum / (series.length : ℚ)))
  else if act == "max" then
    some (match qMaxList series with | some m => .float m | none => .floatNaN)
  else if act == "min" then
    some (match qMinList series with | some m => .float m | none => .floatNaN)
  else none

/-- The final fallback loop of `compute_answer_from_df`, over the short
candidate list; returns the row count when the loop completes.  A
candidate present only under a differently cased name raises `KeyError`
on `df[candidate]`, modelled by `none`. -/
def fallbackLoop (df : Df) (act : String) (cutoff : Option ℚ) :
    List String → Option PyVal
  | [] => some (.int (df.rows.length : ℤ))
  | cand :: rest =>
    if (df.columns.map pyLower).contains cand then
      match getColExact df cand with
      | none => none
      | some cells =>
        let s := cells.filterMap toNumericCell
        let s := match cutoff with
                 | some q => s.filter (fun v => decide (q < v))
                 | none => s
        if act == "sum" then some (.float s.sum)
        else fallbackLoop df act cutoff rest
    else fallbackLoop df act cutoff rest

/-- Embedding of `utils.compute_answer_from_df`.  `none` models an
uncaught exception escaping the function. -/
def compute_answer_from_df (df : Df) (a : QSpec) : Option PyVal :=
  let act := a.action
  let colname := resolveColumn df a.column
  if act == "count" then
    match a.cutoff, colname with
    | some q, some cn =>
      if cn ≠ "" then
        some (.int ((getColByIdx df ((colIdx df cn).getD 0)).countP
          (fun c => match toNumericCell c with
                    | some v => decide (q < v)
                    | none => false) : ℤ))
      else some (.int (df.rows.length : ℤ))
    | _, _ => some (.int (df.rows.length : ℤ))
  else if optTruthy colname then
    match reduceSeries act (seriesOf df (colname.getD "") a.cutoff) with
    | some v => some v
    | none => fallbackLoop df act a.cutoff fallbackCands
  else fallbackLoop df act a.cutoff fallbackCands

/-! ## `json.dumps` and the payload guards

`json.dumps` is modelled with its Python defaults: `ensure_ascii=True`
(so the output is pure ASCII and its UTF-8 byte length equals its
character count) and separators a comma-space and a colon-space. -/

/-- A lowercase hexadecimal digit. -/
def hexDigit (n : Nat) : Char :=
  if n < 10 then Char.ofNat (48 + n) else Char.ofNat (87 + n)

/-- A backslash-u escape of a 16-bit code unit. -/
def uEsc (n : Nat) : List Char :=
  ['\\', 'u', hexDigit (n / 4096 % 16), hexDigit (n / 256 % 16),
   hexDigit (n / 16 % 16), hexDigit (n % 16)]

/-- The characters `json.dumps` emits for one string character. -/
def jesc (c : Char) : List Char :=
  if c = '"' then ['\\', '"']
  else if c = '\\' then ['\\', '\\']
  else if c = '\n' then ['\\', 'n']
  else if c = '\t' then ['\\', 't']
  else if c = '\r' then ['\\', 'r']
  else if c = Char.ofNat 8 then ['\\', 'b']
  else if c = Char.ofNat 12 then ['\\', 'f']
  else if c.toNat < 32 then uEsc c.toNat
  else if c.toNat < 127 then [c]
  else if c.toNat < 65536 then uEsc c.toNat
  else uEsc (55296 + (c.toNat - 65536) / 1024) ++ uEsc (56320 + (c.toNat - 65536) % 1024)

/-- The serialized form of a JSON string. -/
def jstrBytes (s : String) : List Char :=
  '"' :: (s.data.flatMap jesc ++ ['"'])

mutual

/-- The characters of `json.dumps` on a value; `none` when serialization
raises. -/
def dumpsJ : J → Option (List Char)
  | .null => some ('n' :: 'u' :: 'l' :: 'l' :: [])
  | .jbool true => some ('t' :: 'r' :: 'u' :: 'e' :: [])
  | .jbool false => some ('f' :: 'a' :: 'l' :: 's' :: 'e' :: [])
  | .num lit => some lit.data
  | .str s => some (jstrBytes s)
  | .arr xs => (dumpsArr xs).map (fun l => '[' :: (l ++ [']']))
  | .obj kvs => (dumpsObj kvs).map
      (fun l => Char.ofNat 123 :: (l ++ [Char.ofNat 125]))
  | .nonserial => none

/-- Comma-space-joined serializations of array elements. -/
def dumpsArr : List J → Option (List Char)
  | [] => some []
  | [x] => dumpsJ x
  | x :: y :: xs =>
    match dumpsJ x, dumpsArr (y :: xs) with
    | some dx, some ds => some (dx ++ (',' :: ' ' :: ds))
    | _, _ => none

/-- Comma-space-joined serializations of object fields. -/
def dumpsObj : List (String × J) → Option (List Char)
  | [] => some []
  | [(k, v)] => (dumpsJ v).map (fun dv => jstrBytes k ++ (':' :: ' ' :: dv))
  | (k, v) :: f :: fs =>
    match dumpsJ v, dumpsObj (f :: fs) with
    | some dv, some ds =>
      some (jstrBytes k ++ (':' :: ' ' :: dv) ++ (',' :: ' ' :: ds))
    | _, _ => none

end

/-- The outgoing submission payload dictionary. -/
structure Payload where
  email : String
  secret : String
  url : String
  answer : J

/-- The payload as the JSON value `json.dumps` receives (dict insertion
order: email, secret, url, answer). -/
def payloadToJ (p : Payload) : J :=
  .obj [("email", .str p.email), ("secret", .str p.secret),
        ("url", .str p.url), ("answer", p.answer)]

namespace Solver

/-- Embedding of `solver.enforce_payload_limit`: serialize; if the byte
length exceeds 900000 and the answer is a string, truncate the answer to
its first 200000 characters; a serialization failure is swallowed and the
payload returned unchanged. -/
def enforce_payload_limit (p : Payload) : Payload :=
  match dumpsJ (payloadToJ p) with
  | none => p
  | some b =>
    if b.length > 900000 then
      match p.answer with
      | .str s => { p with answer := .str (pyTake s 200000) }
      | _ => p
    else p

end Solver

namespace Utils

/-- Embedding of `utils.enforce_payload_limit` (the duplicate in
`utils.py`, with the size test and the isinstance test as nested
conditionals). -/
def enforce_payload_limit (p : Payload) : Payload :=
  match dumpsJ (payloadToJ p) with
  | none => p
  | some data =>
    if data.length > 900000 then
      match p.answer with
      | .str s => { p with answer := .str (pyTake s 200000) }
      | _ => p
    else p

end Utils

/-! ## URL helpers of `solver.py` -/

/-- Leftmost index at which `needle` occurs in `hay`. -/
def findSubIdx (needle : List Char) : List Char → Option Nat
  | [] => if isPre needle [] then some 0 else none
  | c :: cs =>
    if isPre needle (c :: cs) then some 0
    else (findSubIdx needle cs).map (· + 1)

/-- Model of `urllib.parse.urljoin(base, rel)` for the root-relative
paths the source feeds it (every `rel` starts with a slash): scheme and
network location of `base` followed by `rel`. -/
def urljoinModel (base rel : String) : String :=
  match findSubIdx "://".data base.data with
  | none => rel
  | some i =>
    let after := base.data.drop (i + 3)
    let hostLen := (after.takeWhile (fun c => c ≠ '/')).length
    String.mk (base.data.take (i + 3 + hostLen)) ++ rel

/-- Model of `url.rsplit(".", 1)[-1].lower()`: the text after the last
dot (the whole string when no dot occurs), lowercased. -/
def extOf (url : String) : String :=
  String.mk (((url.data.reverse.takeWhile (fun c => c ≠ '.')).reverse).map Char.toLower)

/-! ## The detectors of `solver.py` -/

/-- Embedding of `solver.detect_submit_url`: four patterns tried in
order on the concatenation of preformatted and page text, first match
winning; relative matches are resolved against the current URL. -/
def detect_submit_url (page_text pre_text current_url : String) : Option String :=
  let content := pre_text ++ "\n" ++ page_text
  match research eqvCI submitRe1 content.data with
  | some r => some (String.mk r.1)
  | none =>
  match research eqvCI submitRe2 content.data with
  | some r => some (String.mk r.1)
  | none =>
  match research eqvCI submitRe3 content.data with
  | some r => (capGet r.2 2).map (fun g => urljoinModel current_url (String.mk g))
  | none =>
  match research eqvCI submitRe4 content.data with
  | some r => (capGet r.2 1).map (fun g => urljoinModel current_url (String.mk g))
  | none => none

/-- Embedding of `solver.detect_file_url`. -/
def detect_file_url (page_text pre_text : String) : Option String :=
  let content := pre_text ++ "\n" ++ page_text
  (research eqvCI fileRe content.data).map (fun r => String.mk r.1)

/-- Embedding of `solver.detect_scrape_url`. -/
def detect_scrape_url (page_text current_url : String) : Option String :=
  match research eqvCI scrapeRe page_text.data with
  | some r => (capGet r.2 1).map (fun g => urljoinModel current_url (String.mk g))
  | none => none

/-- Embedding of `solver.detect_audio_url`. -/
def detect_audio_url (page_text pre_text : String) : Option String :=
  let content := pre_text ++ "\n" ++ page_text
  (research eqvCI audioRe content.data).map (fun r => String.mk r.1)

/-- Embedding of `solver.transcribe_audio`: transcription is disabled
and always yields nothing. -/
def transcribe_audio (_audio_url : String) : Option String := none

/-! ## The chain driver

Network and parsing collaborators are supplied by an `Env`; everything
the repository decides is embedded. -/

/-- A fetched page after BeautifulSoup extraction: the visible text and
the preformatted text pool (with decoded base64 chunks appended, as the
driver does before any use). -/
structure Page where
  visibleText : String
  preText : String

/-- A successfully downloaded file, represented by what the external
parsers produce from its bytes: the pandas CSV parse (with the relaxed
retry; `none` when both raise), the Excel parse, the result of
`compute_answer_from_pdf_bytes`, the UTF-8 decoded text and
`safe_json_parse` of it, and the data URI of the bytes per extension. -/
structure FileData where
  csvParse : Option Df
  excelParse : Option Df
  pdfVal : Option PyVal
  jsonText : String
  jsonParse : Option J
  dataUri : String → String

/-- A submission response: HTTP success flag and the parsed JSON body
(`none` when parsing raises). -/
structure SubmitResult where
  ok : Bool
  body : Option J

/-- The external collaborators of one run: page fetch (`none` = error or
bad status), file download (`none` = error, bad status, or empty bytes),
secondary-page fetch-and-extract, submission, and the chart renderer for
an HTML table found in text (`none` = no table or render failure). -/
structure Env where
  fetchPage : String → Option Page
  download : String → Option FileData
  scrapeText : String → Option String
  submit : String → Payload → Option SubmitResult
  chartOf : String → Option String

/-- Embedding of `solver.scrape_secondary_page`: fetch the page, return
the captured secret code, else the stripped text truncated to 300
characters; a fetch error yields nothing. -/
def scrape_secondary_page (env : Env) (scrape_url : String) : Option String :=
  match env.scrapeText scrape_url with
  | none => none
  | some text =>
    match research eqvCI secretRe text.data with
    | some r => (capGet r.2 1).map String.mk
    | none => some (pyTake (pyStrip text) 300)

/-- Embedding of `llm_agent.ask_llm_for_action`: the local agent simply
reapplies `parse_question_text`. -/
def ask_llm_for_action (page_text : String) (pre_text : Option String) :
    Option QSpec :=
  some (parse_question_text page_text pre_text)

/-- Model of `question_spec.update(llm_spec)`: fields present in the
update replace the originals.  In every reachable call the update equals
the original spec, so any present-key merge is exact. -/
def specUpdate (a b : QSpec) : QSpec :=
  { action := b.action
    column := match b.column with | some c => some c | none => a.column
    cutoff := match b.cutoff with | some q => some q | none => a.cutoff
    page := match b.page with | some n => some n | none => a.page
    chart := a.chart || b.chart }

/-- Whether a serialized numeric literal denotes zero (for Python
truthiness of a parsed JSON number). -/
def isZeroLit (s : String) : Bool :=
  let mantissa := (s.data.dropWhile (fun c => c = '+' || c = '-')).takeWhile
    (fun c => c ≠ 'e' && c ≠ 'E')
  !mantissa.isEmpty && mantissa.all (fun c => c = '0' || c = '.')

/-- Python truthiness of a parsed JSON value. -/
def jTruthy : J → Bool
  | .null => false
  | .jbool b => b
  | .num lit => !(isZeroLit lit)
  | .str s => s ≠ ""
  | .arr xs => !xs.isEmpty
  | .obj kvs => !kvs.isEmpty
  | .nonserial => true

/-- The token `json.dumps` emits for a Python int. -/
def intRepr (n : ℤ) : String := toString n

/-- The token `json.dumps` emits for a Python float of exact value `q`.
Integral floats print as the integer followed by a dot-zero; the
non-integral rendering is a stand-in for the decimal shortest-round-trip
repr (no claim evaluates it). -/
def ratRepr (q : ℚ) : String :=
  if q.den = 1 then intRepr q.num ++ ".0"
  else intRepr q.num ++ "/" ++ toString q.den

/-- A computed answer as the JSON value placed in the payload. -/
def pyValToJ : PyVal → J
  | .float q => .num (ratRepr q)
  | .floatNaN => .num "NaN"
  | .int n => .num (intRepr n)
  | .str s => .str s
  | .jsonv j => j
  | .none_ => .null

/-- The purely text-based answer branch of the driver (step 6, no usable
file): line count for a count intent, chart rendering for a chart
intent, else the stripped visible text truncated to 800 characters. -/
def textAnswer (env : Env) (spec : QSpec) (page_text : String) : PyVal :=
  if spec.action == "count" then
    .int (((page_text.split (fun c => c = '\n')).countP
      (fun ln => pyStrip ln ≠ "")) : ℤ)
  else if spec.action == "chart" then
    match env.chartOf page_text with
    | some uri => .str uri
    | none => .str "no-table"
  else .str (pyTake (pyStrip page_text) 800)

/-- Python truthiness of an optional bytes/string evidence value. -/
def evTruthy : Option String → Bool
  | none => false
  | some s => s ≠ ""

/-- The body of the driver's answer computation (step 6), up to the
enclosing `try`: evidence order is secondary-page result, audio
transcript, downloaded file dispatched on its extension, then plain
text.  `none` models an exception reaching the enclosing handler. -/
def stepAnswerCore (env : Env) (spec : QSpec) (page_text : String)
    (secret_code audio_transcript : Option String)
    (fd : Option FileData) (file_ext : String) : Option PyVal :=
  if evTruthy secret_code then some (.str (secret_code.getD ""))
  else if evTruthy audio_transcript then
    some (.str (pyStrip (audio_transcript.getD "")))
  else
    match fd with
    | some f =>
      if file_ext ≠ "" then
        if file_ext == "csv" then
          match f.csvParse with
          | none => none
          | some df => compute_answer_from_df df spec
        else if file_ext == "xls" || file_ext == "xlsx" then
          match f.excelParse with
          | none => none
          | some df => compute_answer_from_df df spec
        else if file_ext == "pdf" then
          some (match f.pdfVal with
                | some v => v
                | none => .str (f.dataUri "pdf"))
        else if file_ext == "json" then
          some (match f.jsonParse with
                | some j => if jTruthy j then .jsonv j
                            else .str (pyTake f.jsonText 1000)
                | none => .str (pyTake f.jsonText 1000))
        else some (.str (f.dataUri file_ext))
      else some (textAnswer env spec page_text)
    | none => some (textAnswer env spec page_text)

/-- Step 6 with its exception handler: an exception falls back to the
stripped page text truncated to 600 characters. -/
def stepAnswer (env : Env) (spec : QSpec) (page_text : String)
    (secret_code audio_transcript : Option String)
    (fd : Option FileData) (file_ext : String) : PyVal :=
  (stepAnswerCore env spec page_text secret_code audio_transcript fd
    file_ext).getD (.str (pyTake (pyStrip page_text) 600))

/-- Observable network actions of the driver. -/
inductive Ev where
  | fetch (url : String)
  | submitEv (submit_url : String) (payload : Payload)

/-- The next URL taken from a submission response: present only on HTTP
success with a JSON object body whose url field is a truthy string. -/
def nextUrlOf (r : SubmitResult) : Option String :=
  if r.ok then
    match r.body with
    | some (.obj kvs) =>
      match kvs.find? (fun kv => kv.1 == "url") with
      | some (_, .str u) => some u
      | _ => none
    | _ => none
  else none

/-- The submission tail of one driver iteration (step 7): post the
payload, read the next URL from the response; a post error or a missing
or falsy next URL ends the chain. -/
def submitPhase (env : Env) (su : String) (payload : Payload) (cur : String) :
    List Ev × Option String :=
  match env.submit su payload with
  | none => ([.fetch cur, .submitEv su payload], none)
  | some r =>
    match nextUrlOf r with
    | some u =>
      if u ≠ "" then ([.fetch cur, .submitEv su payload], some u)
      else ([.fetch cur, .submitEv su payload], none)
    | none => ([.fetch cur, .submitEv su payload], none)

/-- One iteration of the driver loop body on `cur` (after the visited
check): the network events it performs and the next URL, if any. -/
def chainStep (env : Env) (email secret cur : String) :
    List Ev × Option String :=
  match env.fetchPage cur with
  | none => ([.fetch cur], none)
  | some page =>
    let page_text := page.visibleText
    let pre_text := page.preText
    match detect_submit_url page_text pre_text cur with
    | none => ([.fetch cur], none)
    | some submit_url =>
      let file_url := detect_file_url page_text pre_text
      let fd := file_url.bind env.download
      let file_ext := (file_url.map extOf).getD ""
      let scrape_url := detect_scrape_url page_text cur
      let secret_code := scrape_url.bind (scrape_secondary_page env)
      let _audio_url := detect_audio_url page_text pre_text
      let audio_transcript : Option String := none
      let spec0 := parse_question_text page_text (some pre_text)
      let spec :=
        if spec0.action == "return_text" then
          match ask_llm_for_action page_text (some pre_text) with
          | some l => specUpdate spec0 l
          | none => spec0
        else spec0
      let answer := stepAnswer env spec page_text secret_code
        audio_transcript fd file_ext
      let payload := Solver.enforce_payload_limit
        { email := email, secret := secret, url := cur, answer := pyValToJ answer }
      submitPhase env submit_url payload cur

/-- Embedding of the loop of `solver._solve_quiz_chain`: the fuel counts
the iterations still admitted by the six-second deadline margin; the
loop stops on empty URL, on a revisited URL, and on any step without a
next URL.  The value is the trace of network events. -/
def runChain (env : Env) (email secret : String) :
    Nat → String → List String → List Ev
  | 0, _, _ => []
  | fuel + 1, cur, visited =>
    if cur = "" then []
    else if visited.contains cur then []
    else
      let res := chainStep env email secret cur
      res.1 ++ (match res.2 with
                | some u => runChain env email secret fuel u (cur :: visited)
                | none => [])

/-- The page URLs fetched in a trace. -/
def fetchedUrls (evs : List Ev) : List String :=
  evs.filterMap (fun e => match e with | .fetch u => some u | _ => none)

/-- The page URLs submitted for in a trace (the url field of each
submitted payload). -/
def submittedPageUrls (evs : List Ev) : List String :=
  evs.filterMap (fun e => match e with
    | .submitEv _ p => some p.url
    | _ => none)

/-! ## Concrete instances used by the theorems below -/

/-- A single-quote character (written by code point). -/
def sqc : String := String.singleton (Char.ofNat 39)

/-- The page text of the specification's sum scenario. -/
def c1text : String :=
  "Find the sum of the " ++ sqc ++ "revenue" ++ sqc ++ " column where cutoff: 100"

/-- The CSV table of the specification's sum scenario. -/
def dfRev : Df :=
  ⟨["id", "revenue"], [[.num 1, .num 50], [.num 2, .num 200], [.num 3, .num 150]]⟩

/-- An extra row whose revenue does not exceed the cutoff. -/
def c1row : List Cell := [.num 4, .num 80]

/-- A table whose only lowercased candidate column is the count column
and which has no numeric column. -/
def dfC7 : Df := ⟨["name", "count"], [[.str "a", .str "x"]]⟩

/-- A table with two rows, no resolvable column and no candidate column. -/
def dfC7w : Df := ⟨["name"], [[.str "a"], [.str "b"]]⟩

/-- A non-ASCII character (e-acute), whose JSON escape is six bytes. -/
def eAcute : Char := Char.ofNat 233

/-- An answer string of 160000 non-ASCII characters: shorter than the
truncation length, yet serializing beyond the byte ceiling. -/
def eStr0 : String := String.mk (List.replicate 160000 eAcute)

/-- The payload refuting the byte-ceiling invariant. -/
def p0 : Payload := ⟨"e", "s", "u", .str eStr0⟩

/-- An answer string of 300000 non-ASCII characters, which the guard
genuinely truncates. -/
def eStr1 : String := String.mk (List.replicate 300000 eAcute)

/-- An oversized payload with a string answer. -/
def p1 : Payload := ⟨"e", "s", "u", .str eStr1⟩

/-- A downloaded CSV file for the precedence counterexample. -/
def fdC5 : FileData := ⟨some ⟨["value"], [[.num 5]]⟩, none, none, "", none, fun _ => ""⟩

/-- An environment whose page carries a submit URL, a scrape instruction
and a CSV link, and whose secondary page has no secret code. -/
def envC5x : Env :=
  { fetchPage := fun u =>
      if u = "https://h/q" then
        some ⟨"see https://h/submit scrape /s also https://h/d.csv", ""⟩
      else none
    download := fun u => if u = "https://h/d.csv" then some fdC5 else none
    scrapeText := fun u => if u = "https://h/s" then some "hello" else none
    submit := fun _ _ => some ⟨false, none⟩
    chartOf := fun _ => none }

/-- An environment whose secondary page carries a secret code. -/
def envS : Env :=
  { fetchPage := fun u =>
      if u = "https://h/q" then some ⟨"see https://h/submit scrape /s", ""⟩
      else none
    download := fun _ => none
    scrapeText := fun u =>
      if u = "https://h/s" then some "Secret Code: ABC123" else none
    submit := fun _ _ => some ⟨false, none⟩
    chartOf := fun _ => none }

/-- A downloaded audio file, represented by its data URI. -/
def fdA : FileData :=
  ⟨none, none, none, "", none, fun _ => "data:application/octet-stream;base64,QUJD"⟩

/-- An environment whose page references only an audio file URL (besides
the submit URL) and whose download of it succeeds. -/
def envA : Env :=
  { fetchPage := fun u =>
      if u = "u" then some ⟨"see https://h/submit and https://h/a.mp3", ""⟩
      else none
    download := fun u => if u = "https://h/a.mp3" then some fdA else none
    scrapeText := fun _ => none
    submit := fun _ _ => some ⟨false, none⟩
    chartOf := fun _ => none }

/-- A trivial environment (every collaborator fails). -/
def env0 : Env :=
  { fetchPage := fun _ => none
    download := fun _ => none
    scrapeText := fun _ => none
    submit := fun _ _ => none
    chartOf := fun _ => none }

/-- The serialized form of a payload dictionary whose answer serializes
to `da` (used to reason about lengths without rebuilding the list). -/
def payloadBytes (e s u : String) (da : List Char) : List Char :=
  Char.ofNat 123 ::
    ((jstrBytes "email" ++ (':' :: ' ' :: jstrBytes e) ++
      (',' :: ' ' :: (jstrBytes "secret" ++ (':' :: ' ' :: jstrBytes s) ++
      (',' :: ' ' :: (jstrBytes "url" ++ (':' :: ' ' :: jstrBytes u) ++
      (',' :: ' ' :: (jstrBytes "answer" ++ (':' :: ' ' :: da)))))))) ++
     [Char.ofNat 125])

/-- Whether a pattern contains no capturing group. -/
def capFree : RE → Bool
  | .grp _ _ => false
  | .opt r => capFree r
  | .alt a b => capFree a && capFree b
  | .seq a b => capFree a && capFree b
  | _ => true

/-! ## Helper lemmas on serialization lengths -/

theorem payload_dumps (e s u : String) (a : J) (da : List Char)
    (h : dumpsJ a = some da) :
    dumpsJ (payloadToJ ⟨e, s, u, a⟩) = some (payloadBytes e s u da) := by
  simp [payloadToJ, dumpsJ, dumpsObj, h, payloadBytes]

theorem payloadBytes_len (e s u : String) (da : List Char) :
    (payloadBytes e s u da).length =
      44 + (jstrBytes e).length + (jstrBytes s).length +
        (jstrBytes u).length + da.length := by
  have h1 : (jstrBytes "email").length = 7 := by decide
  have h2 : (jstrBytes "secret").length = 8 := by decide
  have h3 : (jstrBytes "url").length = 5 := by decide
  have h4 : (jstrBytes "answer").length = 8 := by decide
  simp only [payloadBytes, List.length_cons, List.length_append, h1, h2, h3, h4,
    List.length_singleton, List.length_nil]
  omega

theorem jstrBytes_len (x : String) :
    (jstrBytes x).length = 2 + (x.data.flatMap jesc).length := by
  simp only [jstrBytes, List.length_cons, List.length_append, List.length_singleton,
    List.length_nil]
  omega

theorem flatMap_replicate_len (f : Char → List Char) (c : Char) (n : Nat) :
    ((List.replicate n c).flatMap f).length = n * (f c).length := by
  induction n with
  | zero => simp
  | succ m ih => simp [List.replicate_succ, ih]; ring

theorem p0_dumps :
    dumpsJ (payloadToJ p0) = some (payloadBytes "e" "s" "u" (jstrBytes eStr0)) :=
  payload_dumps "e" "s" "u" (.str eStr0) (jstrBytes eStr0) rfl

theorem jstr_eStr0_len : (jstrBytes eStr0).length = 960002 := by
  rw [jstrBytes_len]
  have h : (eStr0.data.flatMap jesc).length = 960000 := by
    show ((List.replicate 160000 eAcute).flatMap jesc).length = 960000
    rw [flatMap_replicate_len]
    norm_num [show (jesc eAcute).length = 6 from by decide]
  omega

theorem p0_len : (payloadBytes "e" "s" "u" (jstrBytes eStr0)).length = 960055 := by
  rw [payloadBytes_len, jstr_eStr0_len]
  decide

theorem p0_enforce : Solver.enforce_payload_limit p0 = p0 := by
  unfold Solver.enforce_payload_limit
  rw [show payloadToJ p0 = payloadToJ ⟨"e", "s", "u", .str eStr0⟩ from rfl,
    payload_dumps "e" "s" "u" (.str eStr0) (jstrBytes eStr0) rfl]
  have hlen : (payloadBytes "e" "s" "u" (jstrBytes eStr0)).length > 900000 := by
    rw [p0_len]; norm_num
  show (if (payloadBytes "e" "s" "u" (jstrBytes eStr0)).length > 900000 then
          match p0.answer with
          | J.str s => { p0 with answer := J.str (pyTake s 200000) }
          | _ => p0
        else p0) = p0
  rw [if_pos hlen]
  show ({ p0 with answer := .str (pyTake eStr0 200000) } : Payload) = p0
  have ht : pyTake eStr0 200000 = eStr0 := by
    show String.mk ((List.replicate 160000 eAcute).take 200000) = eStr0
    rw [List.take_replicate]
    norm_num [eStr0]
  rw [ht]
  rfl

theorem jstr_eStr1_len : (jstrBytes eStr1).length = 1800002 := by
  rw [jstrBytes_len]
  have h : (eStr1.data.flatMap jesc).length = 1800000 := by
    show ((List.replicate 300000 eAcute).flatMap jesc).length = 1800000
    rw [flatMap_replicate_len]
    norm_num [show (jesc eAcute).length = 6 from by decide]
  omega

/-! ## Claim C3 -/

/-- C3 counterexample: after the payload guard runs on `p0` (an ordinary
string-answer payload of 160000 non-ASCII characters), the serialized
size of the returned payload is 960055 bytes, exceeding the claimed
900000-byte ceiling; the guard's single character-count truncation does
not restore the invariant. -/
theorem c3_counterexample :
    ∃ b, dumpsJ (payloadToJ (Solver.enforce_payload_limit p0)) = some b ∧
      900000 < b.length := by
  rw [p0_enforce]
  exact ⟨_, p0_dumps, by rw [p0_len]; norm_num⟩

/-- C3 amended: the payload guard never rejects a payload; it returns it
unchanged except that a string answer of an oversized payload is replaced
by its first 200000 characters.  No bound on the resulting serialized
size is guaranteed. -/
theorem c3_amended (p : Payload) :
    Solver.enforce_payload_limit p = p ∨
      ∃ s, p.answer = J.str s ∧
        Solver.enforce_payload_limit p =
          { p with answer := J.str (pyTake s 200000) } := by
  cases h : dumpsJ (payloadToJ p) with
  | none => left; simp [Solver.enforce_payload_limit, h]
  | some b =>
    by_cases hl : b.length > 900000
    · cases hA : p.answer with
      | str s =>
        right
        exact ⟨s, rfl, by simp [Solver.enforce_payload_limit, h, hA, hl]⟩
      | null => left; simp [Solver.enforce_payload_limit, h, hA, hl]
      | jbool b2 => left; simp [Solver.enforce_payload_limit, h, hA, hl]
      | num l => left; simp [Solver.enforce_payload_limit, h, hA, hl]
      | arr xs => left; simp [Solver.enforce_payload_limit, h, hA, hl]
      | obj kvs => left; simp [Solver.enforce_payload_limit, h, hA, hl]
      | nonserial => left; simp [Solver.enforce_payload_limit, h, hA, hl]
    · left; simp [Solver.enforce_payload_limit, h, hl]

/-! ## Claim C9 -/

/-- C9: the payload guard truncates the answer to its first 200000
characters exactly when the serialized size exceeds 900000 bytes and the
answer is a string; payloads within the ceiling, payloads with non-string
answers, and payloads whose serialization raises are returned unchanged
(fail-open), and nothing is ever rejected. -/
theorem c9_guard_exact :
    (∀ p b, dumpsJ (payloadToJ p) = some b → b.length ≤ 900000 →
      Solver.enforce_payload_limit p = p) ∧
    (∀ p b s, dumpsJ (payloadToJ p) = some b → 900000 < b.length →
      p.answer = J.str s →
      Solver.enforce_payload_limit p = { p with answer := J.str (pyTake s 200000) }) ∧
    (∀ p b, dumpsJ (payloadToJ p) = some b → 900000 < b.length →
      (∀ s, p.answer ≠ J.str s) → Solver.enforce_payload_limit p = p) ∧
    (∀ p, dumpsJ (payloadToJ p) = none → Solver.enforce_payload_limit p = p) := by
  refine ⟨?_, ?_, ?_, ?_⟩
  · intro p b h hle
    simp [Solver.enforce_payload_limit, h, Nat.not_lt.mpr hle]
  · intro p b s h hl hA
    simp [Solver.enforce_payload_limit, h, hA, hl]
  · intro p b h hl hA
    cases hAn : p.answer with
    | str s => exact absurd hAn (hA s)
    | null => simp [Solver.enforce_payload_limit, h, hAn, hl]
    | jbool b2 => simp [Solver.enforce_payload_limit, h, hAn, hl]
    | num l => simp [Solver.enforce_payload_limit, h, hAn, hl]
    | arr xs => simp [Solver.enforce_payload_limit, h, hAn, hl]
    | obj kvs => simp [Solver.enforce_payload_limit, h, hAn, hl]
    | nonserial => simp [Solver.enforce_payload_limit, h, hAn, hl]
  · intro p h
    simp [Solver.enforce_payload_limit, h]

/-- C9 witness: the guard applied to a concrete oversized string-answer
payload (300000 non-ASCII characters, serialized size 1800055 bytes)
truncates the answer to its first 200000 characters. -/
theorem c9_witness :
    Solver.enforce_payload_limit p1 = { p1 with answer := J.str (pyTake eStr1 200000) } := by
  apply c9_guard_exact.2.1 p1 (payloadBytes "e" "s" "u" (jstrBytes eStr1)) eStr1
  · exact payload_dumps "e" "s" "u" (.str eStr1) (jstrBytes eStr1) rfl
  · rw [payloadBytes_len, jstr_eStr1_len]; norm_num
  · rfl

/-! ## Claim C10 -/

/-- C10: the two payload-limit implementations, the one in `solver.py`
and the one in `utils.py`, agree on every payload. -/
theorem c10_guards_equal (p : Payload) :
    Utils.enforce_payload_limit p = Solver.enforce_payload_limit p := rfl

/-! ## Claim C4 -/

/-- C4 counterexample: the page content holds an absolute URL containing
the path segment api and nothing else of interest, yet submit-URL
detection returns nothing — the code has no rule matching api (its
second pattern accepts only submit, post and answer), and no JSON-field,
script-variable or same-domain-fallback rule exists at all. -/
theorem c4_counterexample :
    containsSub ("" ++ "\n" ++ "see https://h.example/api/x") "https://h.example/api" = true ∧
    detect_submit_url "see https://h.example/api/x" "" "https://h.example/q" = none := by
  exact ⟨by rfl, by rfl⟩

/-- C4 amended: submit-URL detection applies exactly four regular
expressions in order with first match winning — (1) an absolute URL
containing a slash-submit; (2) an absolute URL containing a slash
followed by submit, post or answer (not api); (3) a relative
slash-submit path preceded by the start of the content or a non-letter,
resolved against the current URL; (4) a post-back-to instruction naming
a relative slash-submit path, resolved against the current URL — and
returns nothing when no rule matches. -/
theorem c4_amended (pt pre cur : String) :
    (∀ m c, research eqvCI submitRe1 (pre ++ "\n" ++ pt).data = some (m, c) →
       detect_submit_url pt pre cur = some (String.mk m)) ∧
    (research eqvCI submitRe1 (pre ++ "\n" ++ pt).data = none →
     ∀ m c, research eqvCI submitRe2 (pre ++ "\n" ++ pt).data = some (m, c) →
       detect_submit_url pt pre cur = some (String.mk m)) ∧
    (research eqvCI submitRe1 (pre ++ "\n" ++ pt).data = none →
     research eqvCI submitRe2 (pre ++ "\n" ++ pt).data = none →
     ∀ m c, research eqvCI submitRe3 (pre ++ "\n" ++ pt).data = some (m, c) →
       detect_submit_url pt pre cur =
         (capGet c 2).map (fun g => urljoinModel cur (String.mk g))) ∧
    (research eqvCI submitRe1 (pre ++ "\n" ++ pt).data = none →
     research eqvCI submitRe2 (pre ++ "\n" ++ pt).data = none →
     research eqvCI submitRe3 (pre ++ "\n" ++ pt).data = none →
     ∀ m c, research eqvCI submitRe4 (pre ++ "\n" ++ pt).data = some (m, c) →
       detect_submit_url pt pre cur =
         (capGet c 1).map (fun g => urljoinModel cur (String.mk g))) ∧
    (research eqvCI submitRe1 (pre ++ "\n" ++ pt).data = none →
     research eqvCI submitRe2 (pre ++ "\n" ++ pt).data = none →
     research eqvCI submitRe3 (pre ++ "\n" ++ pt).data = none →
     research eqvCI submitRe4 (pre ++ "\n" ++ pt).data = none →
     detect_submit_url pt pre cur = none) := by
  refine ⟨?_, ?_, ?_, ?_, ?_⟩
  · intro m c h1
    simp only [detect_submit_url]
    rw [h1]
  · intro h1 m c h2
    simp only [detect_submit_url]
    rw [h1, h2]
  · intro h1 h2 m c h3
    simp only [detect_submit_url]
    rw [h1, h2, h3]
  · intro h1 h2 h3 m c h4
    simp only [detect_submit_url]
    rw [h1, h2, h3, h4]
  · intro h1 h2 h3 h4
    simp only [detect_submit_url]
    rw [h1, h2, h3, h4]

/-- C4 witness: on content whose only match is the second rule (an
absolute post URL), detection returns that URL. -/
theorem c4_witness :
    detect_submit_url "go https://h.example/post/x" "" "c" =
      some "https://h.example/post/x" := by
  have h2 : research eqvCI submitRe2 ("" ++ "\n" ++ "go https://h.example/post/x").data
      = some ("https://h.example/post/x".data, [(1, "post".data)]) := by rfl
  exact (c4_amended "go https://h.example/post/x" "" "c").2.1 (by rfl) _ _ h2

/-! ## Regular-expression capture lemmas (for claim C6) -/

theorem starDrops_decomp {p : Char → Bool} :
    ∀ {s rest : List Char}, rest ∈ starDrops p s →
      ∃ pre, s = pre ++ rest ∧ pre.all p = true := by
  intro s
  induction s with
  | nil =>
    intro rest h
    simp [starDrops] at h
    exact ⟨[], by simp [h]⟩
  | cons c cs ih =>
    intro rest h
    simp only [starDrops] at h
    by_cases hp : p c
    · rw [if_pos hp] at h
      rcases List.mem_append.mp h with h1 | h2
      · rcases ih h1 with ⟨pre, hpre, hall⟩
        exact ⟨c :: pre, by simp [hpre], by simp [hall, hp]⟩
      · simp at h2
        exact ⟨[], by simp [h2], by simp⟩
    · rw [if_neg hp] at h
      simp at h
      exact ⟨[], by simp [h], by simp⟩

theorem reMatch_plus_decomp {eqv : Char → Char → Bool} {p : Char → Bool}
    {pos : Nat} {s : List Char} {res} (h : res ∈ reMatch eqv (.plus p) pos s) :
    ∃ pre, s = pre ++ res.1 ∧ pre.all p = true ∧ res.2 = [] := by
  cases s with
  | nil => simp [reMatch] at h
  | cons c cs =>
    simp only [reMatch] at h
    by_cases hp : p c
    · rw [if_pos hp] at h
      rcases List.mem_map.mp h with ⟨rest, hrest, heq⟩
      rcases starDrops_decomp hrest with ⟨pre, hpre, hall⟩
      refine ⟨c :: pre, ?_, ?_, ?_⟩
      · rw [← heq]
        simp [hpre]
      · simp [hall, hp]
      · rw [← heq]
    · rw [if_neg hp] at h
      simp at h

theorem seq_caps {eqv : Char → Char → Bool} {r1 r2 : RE} {pos : Nat}
    {s : List Char} {res} (h : res ∈ reMatch eqv (.seq r1 r2) pos s) :
    ∃ s1 c1 c2, (s1, c1) ∈ reMatch eqv r1 pos s ∧
      (res.1, c2) ∈ reMatch eqv r2 (pos + (s.length - s1.length)) s1 ∧
      res.2 = c1 ++ c2 := by
  simp only [reMatch] at h
  rcases List.mem_flatMap.mp h with ⟨pr, hpr, hres⟩
  rcases List.mem_map.mp hres with ⟨pr2, hpr2, heq⟩
  refine ⟨pr.1, pr.2, pr2.2, hpr, ?_, ?_⟩
  · rw [← heq]
    exact hpr2
  · rw [← heq]

theorem grp_caps {eqv : Char → Char → Bool} {n : Nat} {r : RE} {pos : Nat}
    {s : List Char} {res} (h : res ∈ reMatch eqv (.grp n r) pos s) :
    ∃ c, (res.1, c) ∈ reMatch eqv r pos s ∧
      res.2 = (n, s.take (s.length - res.1.length)) :: c := by
  simp only [reMatch] at h
  rcases List.mem_map.mp h with ⟨pr, hpr, heq⟩
  refine ⟨pr.2, ?_, ?_⟩
  · rw [← heq]
    exact hpr
  · rw [← heq]

theorem take_of_append {s pre rest : List Char} (h : s = pre ++ rest) :
    s.take (s.length - rest.length) = pre := by
  subst h
  rw [show (pre ++ rest).length - rest.length = pre.length from by
    simp [List.length_append]]
  exact List.take_left pre rest

theorem reMatch_capFree {eqv : Char → Char → Bool} :
    ∀ {r : RE}, capFree r = true →
      ∀ {pos : Nat} {s : List Char} {res}, res ∈ reMatch eqv r pos s → res.2 = [] := by
  intro r
  induction r with
  | eps =>
    intro _ pos s res h
    simp [reMatch] at h
    simp [h]
  | cls p =>
    intro _ pos s res h
    cases s with
    | nil => simp [reMatch] at h
    | cons c cs =>
      simp only [reMatch] at h
      split at h
      · simp at h
        simp [h]
      · simp at h
  | lit l =>
    intro _ pos s res h
    simp only [reMatch] at h
    split at h
    · simp at h
      simp [h]
    · simp at h
  | star p =>
    intro _ pos s res h
    simp only [reMatch] at h
    rcases List.mem_map.mp h with ⟨rest, _, heq⟩
    rw [← heq]
  | plus p =>
    intro _ pos s res h
    exact (reMatch_plus_decomp h).choose_spec.2.2
  | opt r ih =>
    intro hc pos s res h
    simp only [capFree] at hc
    simp only [reMatch] at h
    rcases List.mem_append.mp h with h1 | h2
    · exact ih hc h1
    · simp at h2
      simp [h2]
  | alt r1 r2 ih1 ih2 =>
    intro hc pos s res h
    simp only [capFree, Bool.and_eq_true] at hc
    simp only [reMatch] at h
    rcases List.mem_append.mp h with h1 | h2
    · exact ih1 hc.1 h1
    · exact ih2 hc.2 h2
  | seq r1 r2 ih1 ih2 =>
    intro hc pos s res h
    simp only [capFree, Bool.and_eq_true] at hc
    rcases seq_caps h with ⟨s1, c1, c2, h1, h2, heq⟩
    have e1 : c1 = [] := ih1 hc.1 h1
    have e2 : c2 = [] := ih2 hc.2 h2
    rw [heq, e1, e2]
    rfl
  | grp n r ih =>
    intro hc
    simp [capFree] at hc
  | bol =>
    intro _ pos s res h
    simp only [reMatch] at h
    split at h
    · simp at h
      simp [h]
    · simp at h

theorem sumColRe_cap {eqv : Char → Char → Bool} {pos : Nat} {s : List Char}
    {res} (h : res ∈ reMatch eqv sumColRe pos s) :
    ∀ l, (1, l) ∈ res.2 → l.all colNameC = true := by
  have h' : res ∈ reMatch eqv
      (.seq (relit "sum of the") (.seq (.plus isPySpace) (.seq (.opt (.cls quoteC))
        (.seq (.grp 1 (.plus colNameC)) (.seq (.opt (.cls quoteC))
          (.seq (.plus isPySpace) (.seq (relit "column") .eps))))))) pos s := h
  rcases seq_caps h' with ⟨s1, c1, d1, hL1, hrest1, heq1⟩
  have hc1 : c1 = [] := reMatch_capFree (by rfl) hL1
  rcases seq_caps hrest1 with ⟨s2, c2, d2, hP1, hrest2, heq2⟩
  have hd1 : d1 = c2 ++ d2 := heq2
  have hc2 : c2 = [] := reMatch_capFree (by rfl) hP1
  rcases seq_caps hrest2 with ⟨s3, c3, d3, hO1, hrest3, heq3⟩
  have hd2 : d2 = c3 ++ d3 := heq3
  have hc3 : c3 = [] := reMatch_capFree (by rfl) hO1
  rcases seq_caps hrest3 with ⟨s4, c4, d4, hG, hrest4, heq4⟩
  have hd3 : d3 = c4 ++ d4 := heq4
  have hd4 : d4 = [] := reMatch_capFree (by rfl) hrest4
  rcases grp_caps hG with ⟨cg, hplus, hcg⟩
  have hc4 : c4 = (1, s3.take (s3.length - s4.length)) :: cg := hcg
  rcases reMatch_plus_decomp hplus with ⟨pre, hpre, hall, hcgnil⟩
  have hcg0 : cg = [] := hcgnil
  have htake : s3.take (s3.length - s4.length) = pre := take_of_append hpre
  intro l hl
  rw [heq1, hc1, hd1, hc2, hd2, hc3, hd3, hc4, hcg0, hd4] at hl
  simp at hl
  rw [hl, htake]
  exact hall

theorem searchFrom_caps {eqv : Char → Char → Bool} {r : RE} :
    ∀ {s : List Char} {pos : Nat} {m : List Char} {caps},
      searchFrom eqv r pos s = some (m, caps) →
      ∃ pos2 s2 res, res ∈ reMatch eqv r pos2 s2 ∧ caps = res.2 := by
  intro s
  induction s with
  | nil =>
    intro pos m caps h
    simp only [searchFrom] at h
    split at h
    · next res rest heq =>
      cases h
      exact ⟨pos, [], res, by rw [heq]; exact List.mem_cons_self _ _, rfl⟩
    · exact absurd h (by simp)
  | cons c cs ih =>
    intro pos m caps h
    simp only [searchFrom] at h
    split at h
    · next res rest heq =>
      cases h
      exact ⟨pos, c :: cs, res, by rw [heq]; exact List.mem_cons_self _ _, rfl⟩
    · exact ih h

theorem research_caps {eqv : Char → Char → Bool} {r : RE} {s : List Char}
    {m : List Char} {caps} (h : research eqv r s = some (m, caps)) :
    ∃ pos2 s2 res, res ∈ reMatch eqv r pos2 s2 ∧ caps = res.2 :=
  searchFrom_caps h

/-- C6 counterexample: on text where two spaces precede the word column,
the captured column name retains a trailing space — the intent column is
the raw capture, not a trimmed phrase. -/
theorem c6_counterexample :
    (parse_question_text "sum of the x  column" none).action = "sum" ∧
    (parse_question_text "sum of the x  column" none).column = some "x " ∧
    pyStrip "x " ≠ "x " := by
  refine ⟨by rfl, by rfl, by decide⟩

/-- C6 amended: whenever the lowercased classifier input contains both
the sum-of-the phrase and the word column, the classified action is sum
and the intent column is exactly the raw regex capture from the
lowercased text (restricted to lowercase alphanumerics, spaces, hyphens
and underscores; possibly untrimmed). -/
theorem c6_amended (pt : String) (pre : Option String)
    (h1 : containsSub (pyLower ((pre.getD "") ++ "\n" ++ pt)) "sum of the" = true)
    (h2 : containsSub (pyLower ((pre.getD "") ++ "\n" ++ pt)) "column" = true) :
    (parse_question_text pt pre).action = "sum" ∧
    (parse_question_text pt pre).column =
      (research eqvExact sumColRe (pyLower ((pre.getD "") ++ "\n" ++ pt)).data).bind
        (fun r => (capGet r.2 1).map String.mk) ∧
    ∀ c, (parse_question_text pt pre).column = some c →
      c.data.all colNameC = true := by
  have hq : parse_question_text pt pre =
      { action := "sum"
        column := (research eqvExact sumColRe
            (pyLower ((pre.getD "") ++ "\n" ++ pt)).data).bind
          (fun r => (capGet r.2 1).map String.mk)
        cutoff := (research eqvExact cutoffRe
            (pyLower ((pre.getD "") ++ "\n" ++ pt)).data).bind
          (fun r => (capGet r.2 1).map (fun ds => ((digitsToNat ds : ℕ) : ℚ))) } := by
    simp only [parse_question_text]
    rw [h1, h2]
    simp
  refine ⟨by rw [hq], by rw [hq], ?_⟩
  intro c hc
  rw [hq] at hc
  cases hres : research eqvExact sumColRe
      (pyLower ((pre.getD "") ++ "\n" ++ pt)).data with
  | none => rw [hres] at hc; exact absurd hc (by simp)
  | some r =>
    rw [hres] at hc
    simp only [Option.bind_some] at hc
    rcases Option.map_eq_some'.mp hc with ⟨l, hfind, hcl⟩
    rcases Option.map_eq_some'.mp hfind with ⟨pr, hpr, hl⟩
    have hmem : pr ∈ r.2 := List.mem_of_find?_eq_some hpr
    have hone : pr.1 = 1 := by
      have := List.find?_some hpr
      simpa using this
    rcases research_caps hres with ⟨pos2, s2, res, hres2, hcaps⟩
    have hmem2 : (1, l) ∈ res.2 := by
      rw [← hcaps, ← hl, ← hone]
      exact hmem
    have := sumColRe_cap hres2 l hmem2
    rw [← hcl]
    exact this

/-- C6 witness: the amended claim applied to a concrete sum question. -/
theorem c6_witness :
    (parse_question_text "sum of the value column" none).action = "sum" ∧
    (parse_question_text "sum of the value column" none).column =
      (research eqvExact sumColRe
        (pyLower (((none : Option String).getD "") ++ "\n" ++ "sum of the value column")).data).bind
        (fun r => (capGet r.2 1).map String.mk) ∧
    ∀ c, (parse_question_text "sum of the value column" none).column = some c →
      c.data.all colNameC = true :=
  c6_amended "sum of the value column" none (by rfl) (by rfl)

/-! ## Claim C7 -/

theorem fallbackLoop_all_absent (df : Df) (act : String) (cutoff : Option ℚ) :
    ∀ cands : List String,
      (∀ c ∈ cands, (df.columns.map pyLower).contains c = false) →
      fallbackLoop df act cutoff cands = some (.int (df.rows.length : ℤ)) := by
  intro cands
  induction cands with
  | nil => intro _; rfl
  | cons cand rest ih =>
    intro h
    have hc := h cand (List.mem_cons_self _ _)
    simp only [fallbackLoop, hc, Bool.false_eq_true, if_false]
    exact ih (fun c hm => h c (List.mem_cons_of_mem _ hm))

theorem fallbackLoop_sum_found (df : Df) (cutoff : Option ℚ) :
    ∀ (cands : List String) (c : String) (cells : List Cell),
      cands.find? (fun c2 => (df.columns.map pyLower).contains c2) = some c →
      getColExact df c = some cells →
      fallbackLoop df "sum" cutoff cands =
        some (.float ((match cutoff with
          | some q => (cells.filterMap toNumericCell).filter (fun v => decide (q < v))
          | none => cells.filterMap toNumericCell).sum)) := by
  intro cands
  induction cands with
  | nil => intro c cells h; simp at h
  | cons cand rest ih =>
    intro c cells hfind hcol
    by_cases hc : (df.columns.map pyLower).contains cand = true
    · have : c = cand := by
        rw [List.find?_cons_of_pos _ hc] at hfind
        exact (Option.some.inj hfind).symm
      subst this
      simp only [fallbackLoop, hc, if_true, hcol]
      cases cutoff with
      | none => rfl
      | some q => rfl
    · have hcf : (df.columns.map pyLower).contains cand = false :=
        Bool.not_eq_true _ ▸ (by simpa using hc)
      rw [List.find?_cons_of_neg _ hc] at hfind
      simp only [fallbackLoop, hcf, Bool.false_eq_true, if_false]
      exact ih c cells hfind hcol

theorem fallbackLoop_other_act (df : Df) (act : String) (cutoff : Option ℚ)
    (hact : act ≠ "sum") :
    ∀ cands : List String,
      (∀ c ∈ cands, (df.columns.map pyLower).contains c = true →
        (getColExact df c).isSome) →
      fallbackLoop df act cutoff cands = some (.int (df.rows.length : ℤ)) := by
  intro cands
  induction cands with
  | nil => intro _; rfl
  | cons cand rest ih =>
    intro h
    by_cases hc : (df.columns.map pyLower).contains cand = true
    · have hsome := h cand (List.mem_cons_self _ _) hc
      rcases Option.isSome_iff_exists.mp hsome with ⟨cells, hcells⟩
      have hbeq : (act == "sum") = false := by
        simp [hact]
      simp only [fallbackLoop, hc, if_true, hcells, hbeq, Bool.false_eq_true, if_false]
      exact ih (fun c hm hcc => h c (List.mem_cons_of_mem _ hm) hcc)
    · have hcf : (df.columns.map pyLower).contains cand = false := by
        simpa using hc
      simp only [fallbackLoop, hcf, Bool.false_eq_true, if_false]
      exact ih (fun c hm hcc => h c (List.mem_cons_of_mem _ hm) hcc)

theorem compute_fallback_red (df : Df) (a : QSpec)
    (hcol : optTruthy (resolveColumn df a.column) = false)
    (hact : a.action ≠ "count") :
    compute_answer_from_df df a = fallbackLoop df a.action a.cutoff fallbackCands := by
  have h1 : (a.action == "count") = false := by
    simp [hact]
  simp only [compute_answer_from_df, h1, hcol, Bool.false_eq_true, if_false]

/-- C7 counterexample: a table whose only candidate column is the count
column (present, lowercased) with an unresolvable intent column and a
sum action returns the row count 1 — the final fallback loop does not
retry the count candidate, so the claimed same-candidate-list retry
(which would aggregate the count column to 0.0) does not happen. -/
theorem c7_counterexample :
    (dfC7.columns.map pyLower).contains "count" = true ∧
    compute_answer_from_df dfC7 { action := "sum" } = some (.int 1) :=
  ⟨by rfl, by rfl⟩

/-- C7 amended: when no column resolves and the action is not count,
the computer runs a final fallback loop over the shorter candidate list
value, amount, price, score (without count): with no candidate present
it returns the row count for every action; for the sum action it
aggregates the first present candidate (when exactly named); for other
actions it returns the row count provided every present candidate is
exactly named (a case-mismatched candidate raises a key error). -/
theorem c7_amended (df : Df) (a : QSpec)
    (hcol : optTruthy (resolveColumn df a.column) = false)
    (hact : a.action ≠ "count") :
    ((∀ c ∈ fallbackCands, (df.columns.map pyLower).contains c = false) →
      compute_answer_from_df df a = some (.int (df.rows.length : ℤ))) ∧
    (∀ c cells, a.action = "sum" →
      fallbackCands.find? (fun c2 => (df.columns.map pyLower).contains c2) = some c →
      getColExact df c = some cells →
      compute_answer_from_df df a =
        some (.float ((match a.cutoff with
          | some q => (cells.filterMap toNumericCell).filter (fun v => decide (q < v))
          | none => cells.filterMap toNumericCell).sum))) ∧
    (a.action ≠ "sum" →
      (∀ c ∈ fallbackCands, (df.columns.map pyLower).contains c = true →
        (getColExact df c).isSome) →
      compute_answer_from_df df a = some (.int (df.rows.length : ℤ))) := by
  refine ⟨?_, ?_, ?_⟩
  · intro h
    rw [compute_fallback_red df a hcol hact]
    exact fallbackLoop_all_absent df a.action a.cutoff fallbackCands h
  · intro c cells hsum hfind hcells
    rw [compute_fallback_red df a hcol hact, hsum]
    exact fallbackLoop_sum_found df a.cutoff fallbackCands c cells hfind hcells
  · intro hnsum h
    rw [compute_fallback_red df a hcol hact]
    exact fallbackLoop_other_act df a.action a.cutoff hnsum fallbackCands h

/-- C7 witness: a mean action over a table with no resolvable and no
candidate column returns the row count. -/
theorem c7_witness :
    compute_answer_from_df dfC7w { action := "mean" } = some (.int 2) := by
  have h := (c7_amended dfC7w { action := "mean" } (by rfl) (by decide)).1
  exact h (by decide)

/-! ## Claim C1 -/

theorem resolveColumn_append (df : Df) (col : Option String) (row : List Cell)
    (ht : optTruthy col = true) :
    resolveColumn ⟨df.columns, df.rows ++ [row]⟩ col = resolveColumn df col := by
  unfold resolveColumn
  simp only [ht, if_true]
  rfl

theorem seriesOf_append (df : Df) (cn : String) (q : ℚ) (row : List Cell)
    (hrow : match toNumericCell (row.getD ((colIdx df cn).getD 0) (.str "")) with
            | none => True
            | some v => v ≤ q) :
    seriesOf ⟨df.columns, df.rows ++ [row]⟩ cn (some q) = seriesOf df cn (some q) := by
  cases hidx : colIdx df cn with
  | none =>
    have hidx2 : colIdx ⟨df.columns, df.rows ++ [row]⟩ cn = none := by
      rw [show colIdx ⟨df.columns, df.rows ++ [row]⟩ cn = colIdx df cn from rfl, hidx]
    simp [seriesOf, getColExact, hidx, hidx2]
  | some i =>
    have hidx2 : colIdx ⟨df.columns, df.rows ++ [row]⟩ cn = some i := by
      rw [show colIdx ⟨df.columns, df.rows ++ [row]⟩ cn = colIdx df cn from rfl, hidx]
    have hcol2 : getColByIdx ⟨df.columns, df.rows ++ [row]⟩ i =
        getColByIdx df i ++ [row.getD i (.str "")] := by
      simp [getColByIdx]
    rw [hidx] at hrow
    simp only [Option.getD_some] at hrow
    simp only [seriesOf, getColExact, hidx, hidx2]
    show (List.filterMap toNumericCell
        (getColByIdx ⟨df.columns, df.rows ++ [row]⟩ i)).filter (fun v => decide (q < v)) =
      (List.filterMap toNumericCell (getColByIdx df i)).filter (fun v => decide (q < v))
    rw [hcol2, List.filterMap_append, List.filter_append]
    cases hcell : toNumericCell (row.getD i (.str "")) with
    | none =>
      have h1 : List.filterMap toNumericCell [row.getD i (.str "")] = [] := by
        simp only [List.filterMap_cons, hcell, List.filterMap_nil]
      rw [h1, List.filter_nil, List.append_nil]
    | some v =>
      rw [hcell] at hrow
      have hnot : decide (q < v) = false := by
        simp [not_lt.mpr hrow]
      have h1 : List.filterMap toNumericCell [row.getD i (.str "")] = [v] := by
        simp only [List.filterMap_cons, hcell, List.filterMap_nil]
      rw [h1]
      have h2 : List.filter (fun v2 => decide (q < v2)) [v] = [] := by
        simp only [List.filter, hnot]
      rw [h2, List.append_nil]

/-- C1: for tabular evidence with a cutoff, the sum, mean, max and min
aggregates consider only rows whose resolved-column value is strictly
greater than the cutoff — appending any row whose resolved-column value
is at most the cutoff (or non-numeric) leaves the answer unchanged — and
the specification's scenario holds: the sum question with cutoff 100
classifies to a sum intent over the revenue column and the table
[50, 200, 150] computes to 350.0 (the row equal to or below the cutoff
excluded). -/
theorem c1_cutoff_strict :
    (∀ (df : Df) (a : QSpec) (q : ℚ) (row : List Cell) (cn : String),
      a.cutoff = some q →
      a.action ∈ (["sum", "mean", "max", "min"] : List String) →
      optTruthy a.column = true →
      resolveColumn df a.column = some cn →
      cn ≠ "" →
      (match toNumericCell (row.getD ((colIdx df cn).getD 0) (.str "")) with
       | none => True
       | some v => v ≤ q) →
      compute_answer_from_df ⟨df.columns, df.rows ++ [row]⟩ a =
        compute_answer_from_df df a) ∧
    parse_question_text c1text none =
      { action := "sum", column := some "revenue", cutoff := some 100 } ∧
    compute_answer_from_df dfRev (parse_question_text c1text none) =
      some (.float 350) := by
  refine ⟨?_, by decide, ?_⟩
  · intro df a q row cn hcut hacts htr hres hcn hrow
    have hbeq : (a.action == "count") = false := by
      simp only [List.mem_cons, List.not_mem_nil, or_false] at hacts
      rcases hacts with h | h | h | h <;> simp [h]
    have hres2 : resolveColumn ⟨df.columns, df.rows ++ [row]⟩ a.column = some cn := by
      rw [resolveColumn_append df a.column row htr, hres]
    have htr2 : optTruthy (some cn) = true := by
      simp [optTruthy, hcn]
    simp only [compute_answer_from_df, hbeq, Bool.false_eq_true, if_false,
      hres2, hres, htr2, if_true, Option.getD_some]
    rw [hcut, seriesOf_append df cn q row hrow]
    simp only [List.mem_cons, List.not_mem_nil, or_false] at hacts
    rcases hacts with h | h | h | h <;> rw [h] <;> rfl
  · have hp : parse_question_text c1text none =
        { action := "sum", column := some "revenue", cutoff := some 100 } := by decide
    rw [hp]
    have hc : compute_answer_from_df dfRev
        { action := "sum", column := some "revenue", cutoff := some 100 } =
        some (.float ([(200 : ℚ), 150].sum)) := rfl
    rw [hc]
    norm_num [List.sum_cons, List.sum_nil]

/-- C1 witness: appending the row with revenue 80 (at most the cutoff
100) to the scenario table leaves the computed sum unchanged. -/
theorem c1_witness :
    compute_answer_from_df ⟨dfRev.columns, dfRev.rows ++ [c1row]⟩
        { action := "sum", column := some "revenue", cutoff := some 100 } =
      compute_answer_from_df dfRev
        { action := "sum", column := some "revenue", cutoff := some 100 } := by
  exact c1_cutoff_strict.1 dfRev
    { action := "sum", column := some "revenue", cutoff := some 100 }
    100 c1row "revenue" rfl (by decide) (by decide) (by rfl) (by decide)
    (show (80 : ℚ) ≤ 100 by norm_num)

/-! ## Claim C2 -/

theorem enforce_preserves_url (p : Payload) :
    (Solver.enforce_payload_limit p).url = p.url := by
  unfold Solver.enforce_payload_limit
  split
  · rfl
  · split
    · split <;> rfl
    · rfl

theorem submitPhase_shape (env : Env) (su : String) (p : Payload) (cur : String) :
    (submitPhase env su p cur).1 = [.fetch cur, .submitEv su p] := by
  unfold submitPhase
  split
  · rfl
  · split
    · split <;> rfl
    · rfl

theorem chainStep_shape (env : Env) (em sec cur : String) :
    (chainStep env em sec cur).1 = [.fetch cur] ∨
    ∃ su p, (chainStep env em sec cur).1 = [.fetch cur, .submitEv su p] ∧
      p.url = cur := by
  simp only [chainStep]
  cases hf : env.fetchPage cur with
  | none => left; rfl
  | some page =>
    dsimp only
    cases hd : detect_submit_url page.visibleText page.preText cur with
    | none => left; rfl
    | some su =>
      right
      refine ⟨su, _, submitPhase_shape env su _ cur, ?_⟩
      rw [enforce_preserves_url]

theorem chainStep_fetched (env : Env) (em sec cur : String) :
    fetchedUrls (chainStep env em sec cur).1 = [cur] := by
  rcases chainStep_shape env em sec cur with h | ⟨su, p, h, _⟩ <;> rw [h] <;> rfl

theorem chainStep_submitted_sub (env : Env) (em sec cur : String) :
    List.Sublist (submittedPageUrls (chainStep env em sec cur).1)
      (fetchedUrls (chainStep env em sec cur).1) := by
  rcases chainStep_shape env em sec cur with h | ⟨su, p, h, hurl⟩
  · rw [h]
    exact List.nil_sublist _
  · rw [h]
    show List.Sublist [p.url] [cur]
    rw [hurl]

theorem runChain_stop (env : Env) (em sec : String) (fuel : Nat)
    (cur : String) (visited : List String) (h : visited.contains cur = true) :
    runChain env em sec fuel cur visited = [] := by
  cases fuel with
  | zero => rfl
  | succ n =>
    simp only [runChain]
    by_cases hc : cur = ""
    · rw [if_pos hc]
    · rw [if_neg hc, if_pos h]

theorem runChain_inv (env : Env) (em sec : String) : ∀ (fuel : Nat)
    (cur : String) (visited : List String),
    (∀ u ∈ fetchedUrls (runChain env em sec fuel cur visited),
      visited.contains u = false) ∧
    (fetchedUrls (runChain env em sec fuel cur visited)).Nodup ∧
    List.Sublist (submittedPageUrls (runChain env em sec fuel cur visited))
      (fetchedUrls (runChain env em sec fuel cur visited)) := by
  intro fuel
  induction fuel with
  | zero =>
    intro cur visited
    exact ⟨by simp [runChain, fetchedUrls], by simp [runChain, fetchedUrls],
      by simp [runChain, fetchedUrls, submittedPageUrls]⟩
  | succ n ih =>
    intro cur visited
    by_cases hc : cur = ""
    · simp [runChain, hc, fetchedUrls, submittedPageUrls]
    · by_cases hv : visited.contains cur = true
      · rw [runChain_stop env em sec (n + 1) cur visited hv]
        exact ⟨by simp [fetchedUrls], by simp [fetchedUrls],
          by simp [fetchedUrls, submittedPageUrls]⟩
      · have hvf : visited.contains cur = false := by simpa using hv
        have hrun : runChain env em sec (n + 1) cur visited =
            (chainStep env em sec cur).1 ++
              (match (chainStep env em sec cur).2 with
               | some u => runChain env em sec n u (cur :: visited)
               | none => []) := by
          simp only [runChain, if_neg hc, hvf, Bool.false_eq_true, if_false]
        rw [hrun]
        cases h2 : (chainStep env em sec cur).2 with
        | none =>
          rw [show (match (none : Option String) with
               | some u => runChain env em sec n u (cur :: visited)
               | none => ([] : List Ev)) = [] from rfl]
          rw [List.append_nil]
          refine ⟨?_, ?_, chainStep_submitted_sub env em sec cur⟩
          · intro u hu
            rw [chainStep_fetched env em sec cur] at hu
            simp at hu
            rw [hu]
            exact hvf
          · rw [chainStep_fetched env em sec cur]
            exact List.nodup_singleton _
        | some u =>
          rw [show (match (some u : Option String) with
               | some u2 => runChain env em sec n u2 (cur :: visited)
               | none => ([] : List Ev)) =
              runChain env em sec n u (cur :: visited) from rfl]
          rcases ih u (cur :: visited) with ⟨ih1, ih2, ih3⟩
          have hnotc : ∀ w ∈ fetchedUrls (runChain env em sec n u (cur :: visited)),
              w ≠ cur ∧ visited.contains w = false := by
            intro w hw
            have := ih1 w hw
            simp only [List.contains_cons, Bool.or_eq_false_iff] at this
            constructor
            · intro he
              rw [he] at this
              simp at this
            · exact this.2
          refine ⟨?_, ?_, ?_⟩
          · intro w hw
            rw [fetchedUrls, List.filterMap_append] at hw
            rcases List.mem_append.mp hw with h1 | h1
            · have : w ∈ fetchedUrls (chainStep env em sec cur).1 := h1
              rw [chainStep_fetched env em sec cur] at this
              simp at this
              rw [this]
              exact hvf
            · exact (hnotc w h1).2
          · rw [fetchedUrls, List.filterMap_append]
            have hf1 : List.filterMap (fun e => match e with
                | Ev.fetch u => some u
                | x => none) (chainStep env em sec cur).1 = [cur] :=
              chainStep_fetched env em sec cur
            rw [hf1, List.singleton_append, List.nodup_cons]
            constructor
            · intro hcur
              exact (hnotc cur hcur).1 rfl
            · exact ih2
          · rw [fetchedUrls, submittedPageUrls, List.filterMap_append,
              List.filterMap_append]
            exact List.Sublist.append (chainStep_submitted_sub env em sec cur) ih3

/-- C2: the chain driver checks the visited set before starting a step
and stops on a revisit — with the current URL already visited the run
performs no network action at all, so a next URL equal to any previously
visited URL terminates the chain at the following step without another
submission; consequently no page URL is ever fetched twice and no page
URL is ever submitted for twice in one run. -/
theorem c2_no_revisit :
    (∀ (env : Env) (em sec : String) (fuel : Nat) (cur : String)
        (visited : List String), visited.contains cur = true →
      runChain env em sec fuel cur visited = []) ∧
    (∀ (env : Env) (em sec : String) (fuel : Nat) (cur : String),
      (fetchedUrls (runChain env em sec fuel cur [])).Nodup) ∧
    (∀ (env : Env) (em sec : String) (fuel : Nat) (cur : String),
      (submittedPageUrls (runChain env em sec fuel cur [])).Nodup) := by
  refine ⟨runChain_stop, ?_, ?_⟩
  · intro env em sec fuel cur
    exact (runChain_inv env em sec fuel cur []).2.1
  · intro env em sec fuel cur
    exact ((runChain_inv env em sec fuel cur []).2.2).nodup
      (runChain_inv env em sec fuel cur []).2.1

/-- C2 witness: a run started on an already visited URL produces no
events, and a fresh run's fetched URLs are duplicate-free. -/
theorem c2_witness :
    runChain env0 "e" "s" 5 "u" ["u"] = [] ∧
    (fetchedUrls (runChain env0 "e" "s" 5 "u" [])).Nodup :=
  ⟨c2_no_revisit.1 env0 "e" "s" 5 "u" ["u"] (by rfl),
   c2_no_revisit.2.1 env0 "e" "s" 5 "u"⟩

/-! ## Claims C5 and C8 -/

theorem stepAnswer_secret (env : Env) (spec : QSpec) (pt : String)
    (fd : Option FileData) (fext : String) (sc : String) (h : sc ≠ "") :
    stepAnswer env spec pt (some sc) none fd fext = .str sc := by
  have ht : evTruthy (some sc) = true := by simp [evTruthy, h]
  simp [stepAnswer, stepAnswerCore, ht]

/-- C5 counterexample: with a secondary page whose text carries no
secret code, the driver submits the scraped text itself (truncated to
300 characters) even though a downloadable CSV file is present — the
precedence is held by any non-empty secondary-page result, not only by a
secret code, so the claimed list (secret code, then audio, then file,
then text) mispredicts this step. -/
theorem c5_counterexample :
    runChain envC5x "e" "s" 1 "https://h/q" [] =
      [.fetch "https://h/q",
       .submitEv "https://h/submit" ⟨"e", "s", "https://h/q", .str "hello"⟩] ∧
    (detect_file_url "see https://h/submit scrape /s also https://h/d.csv" "").isSome
      = true :=
  ⟨by rfl, by rfl⟩

/-- C5 amended: per-step evidence precedence (first available wins) is
the secondary-page result — the secret code when the pattern matches,
otherwise the scraped text truncated to 300 characters, skipped when
empty or failed — then the audio transcript (always absent), then the
downloaded file by extension, then plain page text; in particular any
non-empty secondary result, such as the secret code ABC123, becomes the
submitted answer regardless of the primary page's classified intent. -/
theorem c5_amended :
    (∀ (env : Env) (em sec cur : String) (page : Page) (su surl sc : String),
      env.fetchPage cur = some page →
      detect_submit_url page.visibleText page.preText cur = some su →
      detect_scrape_url page.visibleText cur = some surl →
      scrape_secondary_page env surl = some sc →
      sc ≠ "" →
      (chainStep env em sec cur).1 =
        [.fetch cur, .submitEv su
          (Solver.enforce_payload_limit ⟨em, sec, cur, .str sc⟩)]) ∧
    (∀ (env : Env) (u t : String) r,
      env.scrapeText u = some t →
      research eqvCI secretRe t.data = some r →
      scrape_secondary_page env u = (capGet r.2 1).map String.mk) := by
  constructor
  · intro env em sec cur page su surl sc hf hsu hscr hsc hne
    have hsec : (detect_scrape_url page.visibleText cur).bind
        (scrape_secondary_page env) = some sc := by
      rw [hscr]
      exact hsc
    simp only [chainStep, hf, hsu, hsec]
    rw [stepAnswer_secret env _ page.visibleText _ _ sc hne, submitPhase_shape]
    rfl
  · intro env u t r hfetch hre
    simp only [scrape_secondary_page, hfetch, hre]

/-- C5 witness: a concrete step whose secondary page says
Secret Code: ABC123 submits the payload with answer ABC123. -/
theorem c5_witness :
    (chainStep envS "e" "s" "https://h/q").1 =
      [.fetch "https://h/q",
       .submitEv "https://h/submit"
         (Solver.enforce_payload_limit ⟨"e", "s", "https://h/q", .str "ABC123"⟩)] :=
  c5_amended.1 envS "e" "s" "https://h/q" ⟨"see https://h/submit scrape /s", ""⟩
    "https://h/submit" "https://h/s" "ABC123" (by rfl) (by rfl) (by rfl) (by rfl)
    (by decide)

/-- C8 counterexample: a page referencing only an audio URL (besides
its submit URL) has that URL picked up by the file detector; the driver
downloads it and submits its data URI, not the plain-text answer (which
would have been the truncated page text, shown in the last conjunct). -/
theorem c8_counterexample :
    runChain envA "e" "s" 1 "u" [] =
      [.fetch "u",
       .submitEv "https://h/submit"
         ⟨"e", "s", "u", .str "data:application/octet-stream;base64,QUJD"⟩] ∧
    detect_file_url "see https://h/submit and https://h/a.mp3" "" =
      some "https://h/a.mp3" ∧
    pyValToJ (textAnswer envA
        (parse_question_text "see https://h/submit and https://h/a.mp3" (some ""))
        "see https://h/submit and https://h/a.mp3") =
      .str "see https://h/submit and https://h/a.mp3" :=
  ⟨by rfl, by rfl, by rfl⟩

/-- C8 amended: the audio transcription stub always yields nothing,
but a detected audio URL is also matched by the file detector; when its
download succeeds the answer is the file's data URI (the extension is
none of csv, xls, xlsx, pdf, json), and only when no file is available
does the plain-text path produce the step's answer. -/
theorem c8_amended :
    (∀ u, transcribe_audio u = none) ∧
    (∀ (env : Env) (spec : QSpec) (pt : String) (e : String) (fd : FileData),
      e ∉ (["csv", "xls", "xlsx", "pdf", "json"] : List String) → e ≠ "" →
      stepAnswer env spec pt none none (some fd) e = .str (fd.dataUri e)) ∧
    (∀ (env : Env) (spec : QSpec) (pt : String) (e : String),
      stepAnswer env spec pt none none none e = textAnswer env spec pt) := by
  refine ⟨fun _ => rfl, ?_, fun env spec pt e => rfl⟩
  intro env spec pt e fd hm hne
  have hc : e ≠ "csv" := fun h => hm (by rw [h]; simp)
  have hx : e ≠ "xls" := fun h => hm (by rw [h]; simp)
  have hxx : e ≠ "xlsx" := fun h => hm (by rw [h]; simp)
  have hp : e ≠ "pdf" := fun h => hm (by rw [h]; simp)
  have hj : e ≠ "json" := fun h => hm (by rw [h]; simp)
  simp [stepAnswer, stepAnswerCore, evTruthy, hne, hc, hx, hxx, hp, hj]

/-- C8 witness: a downloaded mp3 file makes the step answer its data
URI regardless of the intent. -/
theorem c8_witness :
    stepAnswer env0 { action := "return_text" } "t" none none (some fdA)
        (extOf "https://h/a.mp3") =
      .str (fdA.dataUri (extOf "https://h/a.mp3")) :=
  c8_amended.2.1 env0 { action := "return_text" } "t" (extOf "https://h/a.mp3")
    fdA (by decide) (by decide)
